import Mathlib

/-!
Verification of the durable execution engine (Go repository
`durable_execution_engine`).  The engine persists one row per
`(workflow_id, step_key)` in a `steps` table; `Step(ctx, id, fn)` claims the
row, executes `fn` once, and checkpoints the result.  This file shallowly
embeds the store (SQL semantics of `store.go`), the context and step-identity
logic (`context.go`), and the step primitive (`step.go`), and proves the
specified properties about them.

Modelling conventions:
* machine state is passed explicitly; wall-clock time, the RFC3339Nano parser
  and the call-site derived automatic step id are supplied through a `TimeEnv`
  record (they are ambient runtime inputs in Go);
* JSON encoding and decoding of the generic payload type `T`
  (`json.Marshal` / `json.Unmarshal`, external library calls in Go) are
  supplied as `T → Except String String` / `String → Except String T`;
* store back-end failures (`execWrite` errors after its retry loop) are
  injected through a `Faults` record, one slot per store call a single `Step`
  performs; a failed write leaves the table unchanged;
* Go `nil` arguments are modelled with `Option` (for the context and the step
  function) and a boolean flag (for the store handle inside the context).
-/

namespace DurableExec

/-- Status literals from `store.go`. -/
def statusRunning : String := "running"

/-- Status literal for a committed step. -/
def statusCompleted : String := "completed"

/-- Status literal for a failed step. -/
def statusFailed : String := "failed"

/-- One SQL row of the `steps` table.  `output_json` and `error_text` are
nullable columns, hence `Option String`; the remaining columns are
`NOT NULL`. -/
structure Row where
  stepID : String
  sequence : Nat
  status : String
  outputJson : Option String
  errorText : Option String
  runId : String
  startedAt : String
  updatedAt : String
deriving DecidableEq, Repr

/-- The durable store: the `steps` table, keyed by the primary key
`(workflow_id, step_key)` (at most one row per key, invariant 1 of the
schema). -/
structure StoreState where
  rows : String → String → Option Row

/-- Write one row at a primary key (helper for the SQL update semantics). -/
def StoreState.set (s : StoreState) (wf key : String) (r : Row) : StoreState :=
  ⟨fun w k => if w = wf ∧ k = key then some r else s.rows w k⟩

/-- The in-memory step reference produced by `Context.nextStepRef`. -/
structure StepRef where
  StepID : String
  Sequence : Nat
  StepKey : String
deriving DecidableEq, Repr

/-- The Go-level `StepRecord` returned by `Store.GetStep`: nullable columns
come back as plain strings, with SQL `NULL` read as `""` (`asString(nil)`). -/
structure StepRecord where
  WorkflowID : String
  StepKey : String
  StepID : String
  Sequence : Nat
  Status : String
  OutputJSON : String
  ErrorText : String
  RunID : String
  StartedAt : String
  UpdatedAt : String
deriving DecidableEq, Repr

/-- Embedding of `parseStepRecord`: view of one SQL row as the Go `StepRecord`. -/
def Row.toRecord (r : Row) (workflowID stepKey : String) : StepRecord :=
  { WorkflowID := workflowID
    StepKey := stepKey
    StepID := r.stepID
    Sequence := r.sequence
    Status := r.status
    OutputJSON := r.outputJson.getD ""
    ErrorText := r.errorText.getD ""
    RunID := r.runId
    StartedAt := r.startedAt
    UpdatedAt := r.updatedAt }

/-- Embedding of `Store.GetStep`: `SELECT ... WHERE workflow_id=? AND step_key=? LIMIT 1`.
`none` models `found = false`. -/
def GetStep (s : StoreState) (workflowID stepKey : String) : Option StepRecord :=
  (s.rows workflowID stepKey).map (·.toRecord workflowID stepKey)

/-- Embedding of `Store.UpsertRunning`:
`INSERT ... VALUES(..., 'running', NULL, NULL, run_id, now, now)
 ON CONFLICT(workflow_id, step_key) DO UPDATE SET status='running',
 output_json=NULL, error_text=NULL, run_id=excluded.run_id,
 started_at=excluded.started_at, updated_at=excluded.updated_at
 WHERE steps.status <> 'completed'`.
On conflict the `SET` list does not touch `step_id` / `sequence`, and the
guard makes the update a no-op when the existing row is completed. -/
def UpsertRunning (s : StoreState) (workflowID : String) (ref : StepRef)
    (runID now : String) : StoreState :=
  match s.rows workflowID ref.StepKey with
  | none =>
      s.set workflowID ref.StepKey
        { stepID := ref.StepID, sequence := ref.Sequence, status := statusRunning
          outputJson := none, errorText := none, runId := runID
          startedAt := now, updatedAt := now }
  | some r =>
      if r.status = statusCompleted then s
      else
        s.set workflowID ref.StepKey
          { r with status := statusRunning, outputJson := none, errorText := none
                   runId := runID, startedAt := now, updatedAt := now }

/-- Embedding of `Store.MarkCompleted`:
`UPDATE steps SET status='completed', output_json=?, error_text=NULL,
 run_id=?, updated_at=? WHERE workflow_id=? AND step_key=?`.
An `UPDATE` that matches no row is a no-op (and no error). -/
def MarkCompleted (s : StoreState) (workflowID stepKey runID outputJSON now : String) :
    StoreState :=
  match s.rows workflowID stepKey with
  | none => s
  | some r =>
      s.set workflowID stepKey
        { r with status := statusCompleted, outputJson := some outputJSON
                 errorText := none, runId := runID, updatedAt := now }

/-- Embedding of `Store.MarkFailed`:
`UPDATE steps SET status='failed', error_text=?, run_id=?, updated_at=?
 WHERE workflow_id=? AND step_key=?`.
Note: the `SET` list does not mention `output_json`, so the stored output is
left as-is. -/
def MarkFailed (s : StoreState) (workflowID stepKey runID errText now : String) :
    StoreState :=
  match s.rows workflowID stepKey with
  | none => s
  | some r =>
      s.set workflowID stepKey
        { r with status := statusFailed, errorText := some errText
                 runId := runID, updatedAt := now }

/-! ### Step identity (`context.go`) -/

/-- Whitespace as trimmed by Go `strings.TrimSpace` (`unicode.IsSpace`),
modelled on the Latin-1 range: tab, newline, vertical tab, form feed,
carriage return, space, next line, no-break space. -/
def isSpaceGo (c : Char) : Bool :=
  c == ' ' || c == '\t' || c == '\n' || c == Char.ofNat 11 ||
  c == Char.ofNat 12 || c == '\r' || c == Char.ofNat 0x85 || c == Char.ofNat 0xA0

/-- Drop characters satisfying `p` from both ends of a character list. -/
def trimCharList (p : Char → Bool) (l : List Char) : List Char :=
  ((l.dropWhile p).reverse.dropWhile p).reverse

/-- Go `strings.TrimSpace`. -/
def trimSpaceGo (s : String) : String := ⟨trimCharList isSpaceGo s.data⟩

/-- Go `strings.ToLower`, modelled on the ASCII range (non-ASCII letters are
replaced by the sanitiser below in every use site of this model). -/
def toLowerGo (s : String) : String := ⟨s.data.map Char.toLower⟩

/-- The character classes kept verbatim by `resolveStepID`:
`a-z`, `0-9`, underscore, hyphen, dot. -/
def keepChar (c : Char) : Bool :=
  ('a' ≤ c && c ≤ 'z') || ('0' ≤ c && c ≤ '9') || c == '_' || c == '-' || c == '.'

/-- One character of the `resolveStepID` builder loop: kept characters pass
through, every other character becomes an underscore. -/
def sanitizeChar (c : Char) : Char := if keepChar c then c else '_'

/-- Embedding of `resolveStepID` from `context.go`.  `autoID` stands for the value
`autoStepID()` would produce at the call site (derived from
`runtime.Caller`); it is consulted only when the trimmed input is empty. -/
def resolveStepID (autoID : String) (id : String) : String :=
  let t := trimSpaceGo id
  let t := if t = "" then autoID else t
  let t := toLowerGo t
  let clean : String := ⟨trimCharList (fun c => c == '_') (t.data.map sanitizeChar)⟩
  if clean = "" then "step" else clean

/-- The normalisation pipeline exactly as the specification words it (for the
refinement claim about `resolveStepID`): trim outer whitespace, lowercase,
keep `{a-z, 0-9, _, -, .}` replacing every other character with `_`, trim
outer underscores, and fall back to `"step"` when empty.  Unlike the source,
this pipeline never consults the automatic call-site id. -/
def resolveStepIDSpec (id : String) : String :=
  let t := toLowerGo (trimSpaceGo id)
  let clean : String := ⟨trimCharList (fun c => c == '_') (t.data.map sanitizeChar)⟩
  if clean = "" then "step" else clean

/-- Go `fmt.Sprintf("%06d", n)` for a non-negative count: decimal digits,
left-padded with zeros to a minimum width of six. -/
def pad6 (n : Nat) : String :=
  let s := toString n
  ⟨List.replicate (6 - s.length) '0'⟩ ++ s

/-- The per-run `Context` (`context.go`).  `ZombieTimeout` is a Go
`time.Duration`, i.e. a signed nanosecond count.  `stepCounters` is the
per-step-id invocation counter map (absent keys read as zero, as for a Go
map). -/
structure Context where
  WorkflowID : String
  RunID : String
  ZombieTimeout : Int
  stepCounters : String → Nat

/-- Embedding of `NewContext`: fresh context with zero zombie timeout and empty counter
map.  The random `run_id` is passed in (it is generated from entropy and the
clock in Go). -/
def NewContext (workflowID runID : String) : Context :=
  { WorkflowID := workflowID, RunID := runID, ZombieTimeout := 0
    stepCounters := fun _ => 0 }

/-- Embedding of `Context.WithZombieTimeout`. -/
def Context.withZombieTimeout (c : Context) (d : Int) : Context :=
  { c with ZombieTimeout := d }

/-- Embedding of `Context.nextStepRef`: normalise the id, increment that id's counter, and
build the step key `<step_id>#<%06d sequence>`.  Returns the reference and
the updated context. -/
def nextStepRef (autoID : String) (c : Context) (id : String) : StepRef × Context :=
  let stepID := resolveStepID autoID id
  let seq := c.stepCounters stepID + 1
  ({ StepID := stepID, Sequence := seq, StepKey := stepID ++ "#" ++ pad6 seq },
   { c with stepCounters := fun s => if s = stepID then seq else c.stepCounters s })

/-! ### Ambient runtime inputs and fault injection -/

/-- Ambient runtime inputs of one `Step` call: the formatted UTC wall-clock
string written into timestamp columns, the wall clock in nanoseconds (for
`time.Since`), the RFC3339Nano parser (`none` models a parse error), and the
call-site derived automatic step id. -/
structure TimeEnv where
  nowStr : String
  nowNanos : Int
  parseRFC3339Nano : String → Option Int
  autoStepID : String

/-- Back-end write/read failures injected into the (at most four) store calls
a single `Step` performs.  `some e` makes the corresponding call fail with
back-end error text `e`; a failed call leaves the table unchanged. -/
structure Faults where
  getErr : Option String
  upsertErr : Option String
  completeErr : Option String
  failErr : Option String
deriving Repr

/-- The fault-free store back-end. -/
def noFaults : Faults := ⟨none, none, none, none⟩

/-- Embedding of `Context.canTakeOverZombie` from `step.go`: takeover is allowed when the
zombie timeout is non-positive, when `updated_at` does not parse, or when the
row is at least `ZombieTimeout` old. -/
def canTakeOverZombie (env : TimeEnv) (c : Context) (record : StepRecord) : Bool :=
  if c.ZombieTimeout ≤ 0 then true
  else
    match env.parseRFC3339Nano record.UpdatedAt with
    | none => true
    | some updated => env.nowNanos - updated ≥ c.ZombieTimeout

/-! ### The claim step and the step primitive (`step.go`) -/

/-- The `claimResult` enum of `step.go`. -/
inductive ClaimResult where
  | claimExecute : ClaimResult
  | claimCached : ClaimResult
deriving DecidableEq, Repr

/-- Result of `Context.claimStep`: the claim decision, the cached JSON (used
only on the cached path), the error, and the store state after the claim
window. -/
structure ClaimOut where
  res : ClaimResult
  cachedJSON : String
  err : Option String
  store : StoreState

/-- Embedding of `Context.claimStep`: under the claim mutex, read the row and decide
between executing and returning the cache, claiming the row via
`UpsertRunning` on every execute path. -/
def claimStep (env : TimeEnv) (faults : Faults) (c : Context) (st : StoreState)
    (ref : StepRef) : ClaimOut :=
  match faults.getErr with
  | some e =>
      ⟨.claimExecute, "", some ("load step state for " ++ ref.StepKey ++ ": " ++ e), st⟩
  | none =>
    match GetStep st c.WorkflowID ref.StepKey with
    | none =>
        match faults.upsertErr with
        | some e =>
            ⟨.claimExecute, "", some ("insert running step " ++ ref.StepKey ++ ": " ++ e), st⟩
        | none =>
            ⟨.claimExecute, "", none, UpsertRunning st c.WorkflowID ref c.RunID env.nowStr⟩
    | some record =>
        if record.Status = statusCompleted then
          ⟨.claimCached, record.OutputJSON, none, st⟩
        else if record.Status = statusFailed then
          match faults.upsertErr with
          | some e =>
              ⟨.claimExecute, "", some ("retry failed step " ++ ref.StepKey ++ ": " ++ e), st⟩
          | none =>
              ⟨.claimExecute, "", none, UpsertRunning st c.WorkflowID ref c.RunID env.nowStr⟩
        else if record.Status = statusRunning then
          if record.RunID = c.RunID then
            ⟨.claimExecute, "",
              some ("step " ++ ref.StepKey ++ " is already running in this execution"), st⟩
          else if canTakeOverZombie env c record then
            match faults.upsertErr with
            | some e =>
                ⟨.claimExecute, "",
                  some ("take over zombie step " ++ ref.StepKey ++ ": " ++ e), st⟩
            | none =>
                ⟨.claimExecute, "", none, UpsertRunning st c.WorkflowID ref c.RunID env.nowStr⟩
          else
            ⟨.claimExecute, "",
              some ("step " ++ ref.StepKey ++ " is still running under run_id=" ++ record.RunID),
              st⟩
        else
          match faults.upsertErr with
          | some e =>
              ⟨.claimExecute, "",
                some ("reset unknown state for step " ++ ref.StepKey ++ ": " ++ e), st⟩
          | none =>
              ⟨.claimExecute, "", none, UpsertRunning st c.WorkflowID ref c.RunID env.nowStr⟩

/-- Result of one `Step` call: the returned value and error, whether the
wrapped function was invoked, and the store state afterwards. -/
structure StepResult (T : Type) where
  value : T
  err : Option String
  fnInvoked : Bool
  store : StoreState

/-- Embedding of `Step[T]` from `step.go`.  `ctx?` is the possibly-nil context, `storeNil`
models `ctx.store == nil`, `fn?` the possibly-nil wrapped function (its
eventual return value and error).  `dec` / `enc` stand for `json.Unmarshal` /
`json.Marshal` at type `T`, `zero` for the Go zero value of `T`. -/
def Step {T : Type} (zero : T) (dec : String → Except String T)
    (enc : T → Except String String) (env : TimeEnv) (faults : Faults)
    (ctx? : Option Context) (storeNil : Bool) (fn? : Option (T × Option String))
    (id : String) (st : StoreState) : StepResult T :=
  match ctx? with
  | none => ⟨zero, some "nil durable context", false, st⟩
  | some c =>
    if storeNil then ⟨zero, some "nil durable store", false, st⟩
    else
      match fn? with
      | none => ⟨zero, some "step function is nil", false, st⟩
      | some fn =>
        let ref := (nextStepRef env.autoStepID c id).1
        let co := claimStep env faults c st ref
        match co.err with
        | some e => ⟨zero, some e, false, co.store⟩
        | none =>
          match co.res with
          | .claimCached =>
            match dec co.cachedJSON with
            | .error e =>
                ⟨zero, some ("decode cached step result for " ++ ref.StepKey ++ ": " ++ e),
                  false, co.store⟩
            | .ok out => ⟨out, none, false, co.store⟩
          | .claimExecute =>
            match fn.2 with
            | some fe =>
                let st2 :=
                  match faults.failErr with
                  | some _ => co.store
                  | none => MarkFailed co.store c.WorkflowID ref.StepKey c.RunID fe env.nowStr
                ⟨zero, some ("step " ++ ref.StepKey ++ " failed: " ++ fe), true, st2⟩
            | none =>
              match enc fn.1 with
              | .error me =>
                  let st2 :=
                    match faults.failErr with
                    | some _ => co.store
                    | none =>
                        MarkFailed co.store c.WorkflowID ref.StepKey c.RunID
                          ("marshal error: " ++ me) env.nowStr
                  ⟨zero, some ("marshal step result for " ++ ref.StepKey ++ ": " ++ me),
                    true, st2⟩
              | .ok payload =>
                match faults.completeErr with
                | some ce =>
                    ⟨zero,
                      some ("step " ++ ref.StepKey ++
                        " executed but completion checkpoint failed (possible zombie step): " ++ ce),
                      true, co.store⟩
                | none =>
                    ⟨fn.1, none, true,
                      MarkCompleted co.store c.WorkflowID ref.StepKey c.RunID payload env.nowStr⟩

/-- Result of `RunWorkflow`: the returned error and whether the workflow
function was invoked. -/
structure RunWorkflowResult where
  err : Option String
  fnInvoked : Bool

/-- Embedding of `RunWorkflow` from `workflow.go`: validate the store handle, the workflow
id and the function, then build a fresh context and invoke the function. -/
def RunWorkflow (storeNil : Bool) (workflowID runID : String)
    (fn? : Option (Context → Option String)) : RunWorkflowResult :=
  if storeNil then ⟨some "nil store", false⟩
  else if workflowID = "" then ⟨some "workflow id is required", false⟩
  else
    match fn? with
    | none => ⟨some "workflow function is nil", false⟩
    | some fn => ⟨fn (NewContext workflowID runID), true⟩

/-- Iterated `nextStepRef` calls with a fixed raw id: the context after `n`
calls. -/
def callN (autoID id : String) (c : Context) : Nat → Context
  | 0 => c
  | n + 1 => (nextStepRef autoID (callN autoID id c n) id).2


/-! ### Helper lemmas -/

theorem StoreState.set_rows (s : StoreState) (wf key : String) (r : Row) (w k : String) :
    (s.set wf key r).rows w k = if w = wf ∧ k = key then some r else s.rows w k := rfl

theorem UpsertRunning_completed_noop (st : StoreState) (wf : String) (ref : StepRef)
    (runID now : String) (r : Row) (h : st.rows wf ref.StepKey = some r)
    (hc : r.status = statusCompleted) :
    UpsertRunning st wf ref runID now = st := by
  simp [UpsertRunning, h, hc]

theorem UpsertRunning_preserves_completed (st : StoreState) (wf1 : String) (ref : StepRef)
    (runID now wf key : String) (r : Row) (h : st.rows wf key = some r)
    (hc : r.status = statusCompleted) :
    (UpsertRunning st wf1 ref runID now).rows wf key = some r := by
  by_cases heq : wf = wf1 ∧ key = ref.StepKey
  · obtain ⟨e1, e2⟩ := heq
    subst e1
    have h2 : st.rows wf ref.StepKey = some r := by rw [← e2]; exact h
    rw [UpsertRunning_completed_noop st wf ref runID now r h2 hc]
    exact h
  · unfold UpsertRunning
    cases hrow : st.rows wf1 ref.StepKey with
    | none => simpa [StoreState.set_rows, heq] using h
    | some r1 =>
        by_cases hs : r1.status = statusCompleted
        · simpa [hs] using h
        · simpa [hs, StoreState.set_rows, heq] using h

theorem MarkCompleted_preserves_other (st : StoreState)
    (wf1 key1 runID outputJSON now wf key : String)
    (hne : ¬(wf = wf1 ∧ key = key1)) :
    (MarkCompleted st wf1 key1 runID outputJSON now).rows wf key = st.rows wf key := by
  unfold MarkCompleted
  cases hrow : st.rows wf1 key1 with
  | none => rfl
  | some r1 => simp [StoreState.set_rows, hne]

theorem MarkFailed_preserves_other (st : StoreState)
    (wf1 key1 runID errText now wf key : String)
    (hne : ¬(wf = wf1 ∧ key = key1)) :
    (MarkFailed st wf1 key1 runID errText now).rows wf key = st.rows wf key := by
  unfold MarkFailed
  cases hrow : st.rows wf1 key1 with
  | none => rfl
  | some r1 => simp [StoreState.set_rows, hne]

theorem claimStep_preserves_completed (env : TimeEnv) (faults : Faults) (c : Context)
    (st : StoreState) (ref : StepRef) (wf key : String) (r : Row)
    (h : st.rows wf key = some r) (hc : r.status = statusCompleted) :
    (claimStep env faults c st ref).store.rows wf key = some r := by
  have hu := UpsertRunning_preserves_completed st c.WorkflowID ref c.RunID env.nowStr
    wf key r h hc
  unfold claimStep
  repeat' split
  all_goals first | exact h | exact hu

theorem claimStep_exec_not_at_completed (env : TimeEnv) (faults : Faults) (c : Context)
    (st : StoreState) (ref : StepRef) (wf key : String) (r : Row)
    (h : st.rows wf key = some r) (hc : r.status = statusCompleted)
    (herr : (claimStep env faults c st ref).err = none)
    (hres : (claimStep env faults c st ref).res = ClaimResult.claimExecute) :
    ¬(c.WorkflowID = wf ∧ ref.StepKey = key) := by
  rintro ⟨h1, h2⟩
  have hget : GetStep st c.WorkflowID ref.StepKey = some (r.toRecord wf key) := by
    simp [GetStep, h1, h2, h]
  have hstat : (r.toRecord wf key).Status = statusCompleted := hc
  unfold claimStep at herr hres
  cases hge : faults.getErr with
  | some e => rw [hge] at herr; simp at herr
  | none =>
      rw [hge, hget] at hres
      simp [hstat] at hres

theorem step_preserves_completed {T : Type} (zero : T) (dec : String → Except String T)
    (enc : T → Except String String) (env : TimeEnv) (faults : Faults)
    (ctx? : Option Context) (storeNil : Bool) (fn? : Option (T × Option String))
    (id : String) (st : StoreState) (wf key : String) (r : Row)
    (h : st.rows wf key = some r) (hc : r.status = statusCompleted) :
    (Step zero dec enc env faults ctx? storeNil fn? id st).store.rows wf key = some r := by
  unfold Step
  cases ctx? with
  | none => exact h
  | some c =>
      cases storeNil with
      | true => exact h
      | false =>
          cases fn? with
          | none => exact h
          | some fn =>
              have hcl := claimStep_preserves_completed env faults c st
                (nextStepRef env.autoStepID c id).1 wf key r h hc
              simp only [Bool.false_eq_true, if_false]
              cases hce : (claimStep env faults c st (nextStepRef env.autoStepID c id).1).err with
              | some e => simp only [hce]; exact hcl
              | none =>
                  simp only [hce]
                  cases hcr : (claimStep env faults c st (nextStepRef env.autoStepID c id).1).res with
                  | claimCached =>
                      simp only [hcr]
                      cases hdec : dec (claimStep env faults c st
                          (nextStepRef env.autoStepID c id).1).cachedJSON with
                      | error e => simp only [hdec]; exact hcl
                      | ok out => simp only [hdec]; exact hcl
                  | claimExecute =>
                      simp only [hcr]
                      have hne := claimStep_exec_not_at_completed env faults c st
                        (nextStepRef env.autoStepID c id).1 wf key r h hc hce hcr
                      have hne2 : ¬(wf = c.WorkflowID ∧
                          key = (nextStepRef env.autoStepID c id).1.StepKey) := by
                        rintro ⟨e1, e2⟩
                        exact hne ⟨e1.symm, e2.symm⟩
                      cases hfn : fn.2 with
                      | some fe =>
                          simp only [hfn]
                          cases hff : faults.failErr with
                          | some e => simp only [hff]; exact hcl
                          | none =>
                              simp only [hff]
                              exact (MarkFailed_preserves_other _ _ _ _ _ _ _ _ hne2).trans hcl
                      | none =>
                          simp only [hfn]
                          cases henc : enc fn.1 with
                          | error me =>
                              simp only [henc]
                              cases hff : faults.failErr with
                              | some e => simp only [hff]; exact hcl
                              | none =>
                                  simp only [hff]
                                  exact (MarkFailed_preserves_other _ _ _ _ _ _ _ _ hne2).trans hcl
                          | ok payload =>
                              simp only [henc]
                              cases hcf : faults.completeErr with
                              | some ce => simp only [hcf]; exact hcl
                              | none =>
                                  simp only [hcf]
                                  exact (MarkCompleted_preserves_other _ _ _ _ _ _ _ _ hne2).trans hcl

/-- The arguments of one `Step` call, with the payload type instantiated at
`String` (the store only ever sees the encoded string payload, so every
store-level behaviour of `Step` at any payload type is realised at this
instantiation by a suitable choice of `dec` / `enc` / `fn?`). -/
structure StepCall where
  zero : String
  dec : String → Except String String
  enc : String → Except String String
  env : TimeEnv
  faults : Faults
  ctx? : Option Context
  storeNil : Bool
  fn? : Option (String × Option String)
  id : String

/-- The store state after one `Step` call. -/
def runCall (st : StoreState) (k : StepCall) : StoreState :=
  (Step k.zero k.dec k.enc k.env k.faults k.ctx? k.storeNil k.fn? k.id st).store

/-- The store state after a sequence of `Step` calls. -/
def runCalls (st : StoreState) (calls : List StepCall) : StoreState :=
  calls.foldl runCall st

theorem callN_counter (autoID id : String) (c : Context) (n : Nat) :
    (callN autoID id c n).stepCounters (resolveStepID autoID id) =
      c.stepCounters (resolveStepID autoID id) + n := by
  induction n with
  | zero => rfl
  | succ m ih =>
      show (nextStepRef autoID (callN autoID id c m) id).2.stepCounters
        (resolveStepID autoID id) = _
      simp only [nextStepRef]
      simp [ih]
      omega

/-! ### Claim C1 -/

/-- A completed row with a non-null stored output, for the `MarkFailed`
counterexample. -/
def c1Row : Row :=
  { stepID := "create_record", sequence := 1, status := "completed"
    outputJson := some "7", errorText := none, runId := "run-a"
    startedAt := "t0", updatedAt := "t0" }

/-- A store holding exactly `c1Row`. -/
def c1Store : StoreState :=
  ⟨fun wf k => if wf = "wf-demo" ∧ k = "create_record#000001" then some c1Row else none⟩

/-- C1 counterexample: a successful `MarkFailed` on a row whose `output_json`
is non-null sets `status = failed` and `error_text`, but leaves `output_json`
at its old non-null value — the claim that the output is cleared to null is
false on the code (the `UPDATE` in `MarkFailed` does not mention
`output_json`). -/
theorem C1_counterexample :
    ((MarkFailed c1Store "wf-demo" "create_record#000001" "run-b" "boom" "t1").rows
        "wf-demo" "create_record#000001").map Row.status = some statusFailed ∧
    ((MarkFailed c1Store "wf-demo" "create_record#000001" "run-b" "boom" "t1").rows
        "wf-demo" "create_record#000001").map Row.outputJson = some (some "7") ∧
    ((MarkFailed c1Store "wf-demo" "create_record#000001" "run-b" "boom" "t1").rows
        "wf-demo" "create_record#000001").map Row.outputJson ≠ some none := by
  refine ⟨by decide, by decide, by decide⟩

/-- C1 (amended): after a successful `MarkFailed(workflow_id, step_key,
run_id, error_text)` on a store containing a row for that key, the row has
status `failed`, `error_text` set to the given message, `run_id` and
`updated_at` overwritten — and `output_json` left unchanged (it is not
cleared; on the engine's own call path it is already null because the row was
claimed into `running` first). -/
theorem C1_markFailed_overwrites_row (st : StoreState) (wf key runID errText now : String)
    (r : Row) (h : st.rows wf key = some r) :
    (MarkFailed st wf key runID errText now).rows wf key =
      some { r with status := statusFailed, errorText := some errText
                    runId := runID, updatedAt := now } ∧
    ((MarkFailed st wf key runID errText now).rows wf key).map Row.outputJson =
      some r.outputJson := by
  have h1 : (MarkFailed st wf key runID errText now).rows wf key =
      some { r with status := statusFailed, errorText := some errText
                    runId := runID, updatedAt := now } := by
    simp [MarkFailed, h, StoreState.set_rows]
  exact ⟨h1, by rw [h1]; rfl⟩

/-- C1 witness: the amended statement evaluated on the concrete store. -/
theorem C1_markFailed_overwrites_row_witness :
    c1Store.rows "wf-demo" "create_record#000001" = some c1Row ∧
    (MarkFailed c1Store "wf-demo" "create_record#000001" "run-b" "boom" "t1").rows
        "wf-demo" "create_record#000001" =
      some { c1Row with status := statusFailed, errorText := some "boom"
                        runId := "run-b", updatedAt := "t1" } :=
  ⟨by decide,
   (C1_markFailed_overwrites_row c1Store "wf-demo" "create_record#000001" "run-b" "boom"
      "t1" c1Row (by decide)).1⟩

/-! ### Claim C2 -/

/-- C2: `completed` is terminal.  First conjunct: `UpsertRunning` on an
existing completed row leaves the entire store unchanged (the guarded
upsert).  Second conjunct: in every store state reachable from a state
containing a completed row by any sequence of `Step` calls (together with
the `GetStep` / `UpsertRunning` / `MarkCompleted` / `MarkFailed` operations
those calls issue, with arbitrary fault injection), that row is never
modified — in particular it is never transitioned back to `running` or
`failed`. -/
theorem C2_completed_is_terminal :
    (∀ (st : StoreState) (wf : String) (ref : StepRef) (runID now : String) (r : Row),
        st.rows wf ref.StepKey = some r → r.status = statusCompleted →
        UpsertRunning st wf ref runID now = st) ∧
    (∀ (st : StoreState) (calls : List StepCall) (wf key : String) (r : Row),
        st.rows wf key = some r → r.status = statusCompleted →
        (runCalls st calls).rows wf key = some r) := by
  constructor
  · exact fun st wf ref runID now r h hc =>
      UpsertRunning_completed_noop st wf ref runID now r h hc
  · intro st calls
    induction calls generalizing st with
    | nil => intro wf key r h _; exact h
    | cons k ks ih =>
        intro wf key r h hc
        exact ih (runCall st k) wf key r
          (step_preserves_completed k.zero k.dec k.enc k.env k.faults k.ctx? k.storeNil
            k.fn? k.id st wf key r h hc) hc

/-- A completed row for the C2 witness. -/
def c2Row : Row :=
  { stepID := "provision_laptop", sequence := 1, status := "completed"
    outputJson := some "\"ok\"", errorText := none, runId := "run-a"
    startedAt := "t0", updatedAt := "t0" }

/-- A store holding exactly `c2Row`. -/
def c2Store : StoreState :=
  ⟨fun wf k => if wf = "wf-c2" ∧ k = "provision_laptop#000001" then some c2Row else none⟩

/-- A concrete `Step` call aimed at the completed row of `c2Store`. -/
def c2Call : StepCall :=
  { zero := "", dec := fun s => .ok s, enc := fun s => .ok s
    env := ⟨"t1", 0, fun _ => none, "auto_7_fn"⟩, faults := noFaults
    ctx? := some (NewContext "wf-c2" "run-b"), storeNil := false
    fn? := some ("fresh", none), id := "provision_laptop" }

/-- C2 witness: the terminality theorem evaluated on a concrete completed
row, a concrete upsert, and a concrete one-call sequence. -/
theorem C2_completed_is_terminal_witness :
    UpsertRunning c2Store "wf-c2" ⟨"provision_laptop", 1, "provision_laptop#000001"⟩
        "run-b" "t1" = c2Store ∧
    (runCalls c2Store [c2Call]).rows "wf-c2" "provision_laptop#000001" = some c2Row :=
  ⟨C2_completed_is_terminal.1 c2Store "wf-c2"
      ⟨"provision_laptop", 1, "provision_laptop#000001"⟩ "run-b" "t1" c2Row
      (by decide) (by decide),
   C2_completed_is_terminal.2 c2Store [c2Call] "wf-c2" "provision_laptop#000001" c2Row
      (by decide) (by decide)⟩

/-! ### Claim C6 -/

/-- C6: step sequence numbering.  First conjunct: a single `nextStepRef` call
returns the per-(normalised-)id counter incremented by one, stores that new
value back, names the normalised id, and builds the step key as the
normalised id, a hash sign, and the sequence formatted `%06d`.  Second
conjunct: starting from a fresh context (all counters zero), the `(n+1)`-st
call with a fixed id returns sequence `n+1` and key `<id>#<pad6 (n+1)>`, so
the n-th call returns sequence n.  Third conjunct: three successive calls
with id `loop_step` yield keys `loop_step#000001`, `loop_step#000002`,
`loop_step#000003`. -/
theorem C6_sequence_counter :
    (∀ (autoID : String) (c : Context) (id : String),
        (nextStepRef autoID c id).1.Sequence =
            c.stepCounters (resolveStepID autoID id) + 1 ∧
        (nextStepRef autoID c id).2.stepCounters (resolveStepID autoID id) =
            (nextStepRef autoID c id).1.Sequence ∧
        (nextStepRef autoID c id).1.StepID = resolveStepID autoID id ∧
        (nextStepRef autoID c id).1.StepKey =
            resolveStepID autoID id ++ "#" ++ pad6 ((nextStepRef autoID c id).1.Sequence)) ∧
    (∀ (autoID id workflowID runID : String) (n : Nat),
        (nextStepRef autoID (callN autoID id (NewContext workflowID runID) n) id).1.Sequence =
            n + 1 ∧
        (nextStepRef autoID (callN autoID id (NewContext workflowID runID) n) id).1.StepKey =
            resolveStepID autoID id ++ "#" ++ pad6 (n + 1)) ∧
    ((nextStepRef "a" (NewContext "wf" "r") "loop_step").1.StepKey = "loop_step#000001" ∧
     (nextStepRef "a" (callN "a" "loop_step" (NewContext "wf" "r") 1) "loop_step").1.StepKey =
        "loop_step#000002" ∧
     (nextStepRef "a" (callN "a" "loop_step" (NewContext "wf" "r") 2) "loop_step").1.StepKey =
        "loop_step#000003") := by
  refine ⟨fun autoID c id => ⟨rfl, by simp [nextStepRef], rfl, rfl⟩, ?_, ?_, ?_, ?_⟩
  · intro autoID id workflowID runID n
    have hseq : (nextStepRef autoID (callN autoID id (NewContext workflowID runID) n)
        id).1.Sequence = n + 1 := by
      show (callN autoID id (NewContext workflowID runID) n).stepCounters
          (resolveStepID autoID id) + 1 = n + 1
      rw [callN_counter]
      simp [NewContext]
    exact ⟨hseq, by rw [show (nextStepRef autoID (callN autoID id
      (NewContext workflowID runID) n) id).1.StepKey = resolveStepID autoID id ++ "#" ++
      pad6 ((nextStepRef autoID (callN autoID id (NewContext workflowID runID) n)
        id).1.Sequence) from rfl, hseq]⟩
  · decide
  · decide
  · decide

/-! ### Claim C7 -/

/-- C7 counterexample: the claim quantifies over every non-empty input, but a
whitespace-only input is non-empty and takes the automatic-id branch of the
source (its trimmed form is empty), so the code result is the normalised
call-site id — e.g. `main_74_main_main` — while the claimed pipeline yields
`"step"`. -/
theorem C7_counterexample :
    resolveStepID "main_74_main_main" " " = "main_74_main_main" ∧
    resolveStepIDSpec " " = "step" ∧
    resolveStepID "main_74_main_main" " " ≠ resolveStepIDSpec " " := by
  refine ⟨by decide, by decide, by decide⟩

/-- C7 (amended): for every input string that is non-empty after trimming
outer whitespace, `resolveStepID` returns exactly the claimed pipeline: trim
outer whitespace, lowercase, keep `a-z 0-9 _ - .` replacing every other
character with an underscore, trim outer underscores, and return `"step"`
when the result is empty. -/
theorem C7_resolveStepID_matches_spec (autoID id : String) (h : trimSpaceGo id ≠ "") :
    resolveStepID autoID id = resolveStepIDSpec id := by
  simp [resolveStepID, resolveStepIDSpec, h]

/-- C7 witness: the amended statement on a concrete mixed-case input with
punctuation and surrounding whitespace. -/
theorem C7_resolveStepID_matches_spec_witness :
    trimSpaceGo "  Create Record!  " ≠ "" ∧
    resolveStepID "auto_7_fn" "  Create Record!  " =
      resolveStepIDSpec "  Create Record!  " ∧
    resolveStepIDSpec "  Create Record!  " = "create_record" :=
  ⟨by decide,
   C7_resolveStepID_matches_spec "auto_7_fn" "  Create Record!  " (by decide),
   by decide⟩

/-! ### Claim C9 -/

/-- C9: input validation is fatal and not retried.  With a nil context, a nil
store, or a nil step function, `Step` returns an error, returns the zero
value, does not invoke `fn`, and leaves the store untouched; `RunWorkflow`
with a nil store, an empty workflow id, or a nil workflow function returns an
error without invoking the function. -/
theorem C9_input_validation :
    (∀ (T : Type) (zero : T) (dec : String → Except String T)
        (enc : T → Except String String) (env : TimeEnv) (faults : Faults)
        (storeNil : Bool) (fn? : Option (T × Option String)) (id : String)
        (st : StoreState),
        Step zero dec enc env faults none storeNil fn? id st =
          ⟨zero, some "nil durable context", false, st⟩) ∧
    (∀ (T : Type) (zero : T) (dec : String → Except String T)
        (enc : T → Except String String) (env : TimeEnv) (faults : Faults)
        (c : Context) (fn? : Option (T × Option String)) (id : String)
        (st : StoreState),
        Step zero dec enc env faults (some c) true fn? id st =
          ⟨zero, some "nil durable store", false, st⟩) ∧
    (∀ (T : Type) (zero : T) (dec : String → Except String T)
        (enc : T → Except String String) (env : TimeEnv) (faults : Faults)
        (c : Context) (id : String) (st : StoreState),
        Step zero dec enc env faults (some c) false none id st =
          ⟨zero, some "step function is nil", false, st⟩) ∧
    (∀ (workflowID runID : String) (fn? : Option (Context → Option String)),
        RunWorkflow true workflowID runID fn? = ⟨some "nil store", false⟩) ∧
    (∀ (runID : String) (fn? : Option (Context → Option String)),
        RunWorkflow false "" runID fn? = ⟨some "workflow id is required", false⟩) ∧
    (∀ (workflowID runID : String),
        (RunWorkflow false workflowID runID none).err.isSome = true ∧
        (RunWorkflow false workflowID runID none).fnInvoked = false) := by
  refine ⟨fun _ _ _ _ _ _ _ _ _ _ => rfl, fun _ _ _ _ _ _ _ _ _ _ => rfl,
    fun _ _ _ _ _ _ _ _ _ => rfl, fun _ _ _ => rfl, fun _ _ => rfl, ?_⟩
  intro workflowID runID
  by_cases h : workflowID = "" <;> simp [RunWorkflow, h]

/-! ### Claim C10 -/

theorem step_err_or_zero {T : Type} (zero : T) (dec : String → Except String T)
    (enc : T → Except String String) (env : TimeEnv) (faults : Faults)
    (ctx? : Option Context) (storeNil : Bool) (fn? : Option (T × Option String))
    (id : String) (st : StoreState) :
    (Step zero dec enc env faults ctx? storeNil fn? id st).err = none ∨
    (Step zero dec enc env faults ctx? storeNil fn? id st).value = zero := by
  simp only [Step]
  repeat' split
  all_goals simp

/-- C10: whenever `Step` returns an error — validation, claim failure,
cache-decode failure, step-function failure, marshal failure, or
completion-checkpoint failure — the returned value is the zero value of the
payload type. -/
theorem C10_zero_value_on_error {T : Type} (zero : T) (dec : String → Except String T)
    (enc : T → Except String String) (env : TimeEnv) (faults : Faults)
    (ctx? : Option Context) (storeNil : Bool) (fn? : Option (T × Option String))
    (id : String) (st : StoreState) (e : String)
    (h : (Step zero dec enc env faults ctx? storeNil fn? id st).err = some e) :
    (Step zero dec enc env faults ctx? storeNil fn? id st).value = zero := by
  rcases step_err_or_zero zero dec enc env faults ctx? storeNil fn? id st with h1 | h1
  · rw [h] at h1
    cases h1
  · exact h1

/-- An empty store for concrete witnesses. -/
def emptyStore : StoreState := ⟨fun _ _ => none⟩

/-- A concrete runtime environment for witnesses: fixed formatted clock,
clock at 1000 ns, a parser that accepts only `"t0"` (at 0 ns), and a fixed
call-site id. -/
def testEnv : TimeEnv :=
  { nowStr := "t1", nowNanos := 1000
    parseRFC3339Nano := fun s => if s = "t0" then some 0 else none
    autoStepID := "auto_7_fn" }

/-- Accumulator loop of the witness decoder: consume decimal digits. -/
def digitsToNat (acc : Nat) : List Char → Option Nat
  | [] => some acc
  | c :: cs =>
      if '0' ≤ c ∧ c ≤ '9' then digitsToNat (acc * 10 + (c.toNat - 48)) cs else none

/-- Decoder for witnesses: the JSON form of a natural number. -/
def decNat : String → Except String Nat := fun s =>
  match s.data with
  | [] => Except.error "invalid character"
  | l =>
      match digitsToNat 0 l with
      | some n => Except.ok n
      | none => Except.error "invalid character"

/-- Encoder for witnesses: a natural number to its JSON form. -/
def encNat : Nat → Except String String := fun n => Except.ok (toString n)

/-- C10 witness: a nil-context call returns an error and the zero value. -/
theorem C10_zero_value_on_error_witness :
    (Step 0 decNat encNat testEnv noFaults none false none "create_record" emptyStore).err =
      some "nil durable context" ∧
    (Step 0 decNat encNat testEnv noFaults none false none "create_record" emptyStore).value = 0 :=
  ⟨rfl, C10_zero_value_on_error 0 decNat encNat testEnv noFaults none false none
    "create_record" emptyStore "nil durable context" rfl⟩

/-! ### Claims C3 and C4: the cached path -/

theorem claimStep_cached (env : TimeEnv) (faults : Faults) (c : Context)
    (st : StoreState) (ref : StepRef) (r : Row)
    (hget : faults.getErr = none)
    (hrow : st.rows c.WorkflowID ref.StepKey = some r)
    (hc : r.status = statusCompleted) :
    claimStep env faults c st ref =
      ⟨ClaimResult.claimCached, r.outputJson.getD "", none, st⟩ := by
  simp [claimStep, hget, GetStep, hrow, Row.toRecord, hc]

/-- C3: when the resolved step key has an existing record with status
`completed` whose stored output decodes, `Step` returns the decoded value
with no error, does not invoke `fn`, and leaves the store unchanged
(memoisation: a rerun invokes no side-effect function for a completed
step). -/
theorem C3_cached_hit {T : Type} (zero : T) (dec : String → Except String T)
    (enc : T → Except String String) (env : TimeEnv) (faults : Faults)
    (c : Context) (fn : T × Option String) (id : String) (st : StoreState)
    (r : Row) (out : T)
    (hget : faults.getErr = none)
    (hrow : st.rows c.WorkflowID (nextStepRef env.autoStepID c id).1.StepKey = some r)
    (hc : r.status = statusCompleted)
    (hdec : dec (r.outputJson.getD "") = Except.ok out) :
    Step zero dec enc env faults (some c) false (some fn) id st =
      ⟨out, none, false, st⟩ := by
  have hcl := claimStep_cached env faults c st (nextStepRef env.autoStepID c id).1 r
    hget hrow hc
  simp only [Step]
  rw [hcl]
  simp [hdec]

/-- C4: when the resolved step key has an existing `completed` record whose
stored output does not decode, `Step` returns the decode error for that step
key, does not invoke `fn`, and leaves the store unchanged — no retry and no
re-execution. -/
theorem C4_cached_decode_failure {T : Type} (zero : T) (dec : String → Except String T)
    (enc : T → Except String String) (env : TimeEnv) (faults : Faults)
    (c : Context) (fn : T × Option String) (id : String) (st : StoreState)
    (r : Row) (e : String)
    (hget : faults.getErr = none)
    (hrow : st.rows c.WorkflowID (nextStepRef env.autoStepID c id).1.StepKey = some r)
    (hc : r.status = statusCompleted)
    (hdec : dec (r.outputJson.getD "") = Except.error e) :
    Step zero dec enc env faults (some c) false (some fn) id st =
      ⟨zero,
       some ("decode cached step result for " ++
         (nextStepRef env.autoStepID c id).1.StepKey ++ ": " ++ e),
       false, st⟩ := by
  have hcl := claimStep_cached env faults c st (nextStepRef env.autoStepID c id).1 r
    hget hrow hc
  simp only [Step]
  rw [hcl]
  simp [hdec]

/-- A completed row with decodable output for the C3 witness. -/
def c3Row : Row :=
  { stepID := "create_record", sequence := 1, status := "completed"
    outputJson := some "7", errorText := none, runId := "run-a"
    startedAt := "t0", updatedAt := "t0" }

/-- A store holding exactly `c3Row` under workflow `wf-memo`. -/
def c3Store : StoreState :=
  ⟨fun wf k => if wf = "wf-memo" ∧ k = "create_record#000001" then some c3Row else none⟩

/-- C3 witness: a second run over the completed row returns the cached 7
without invoking the new function. -/
theorem C3_cached_hit_witness :
    noFaults.getErr = none ∧
    c3Store.rows (NewContext "wf-memo" "run-b").WorkflowID
        (nextStepRef testEnv.autoStepID (NewContext "wf-memo" "run-b")
          "create_record").1.StepKey = some c3Row ∧
    c3Row.status = statusCompleted ∧
    decNat (c3Row.outputJson.getD "") = Except.ok 7 ∧
    Step 0 decNat encNat testEnv noFaults (some (NewContext "wf-memo" "run-b")) false
        (some (999, none)) "create_record" c3Store = ⟨7, none, false, c3Store⟩ :=
  ⟨rfl, by decide, rfl, by rfl,
   C3_cached_hit 0 decNat encNat testEnv noFaults (NewContext "wf-memo" "run-b")
     (999, none) "create_record" c3Store c3Row 7 rfl (by decide) rfl (by rfl)⟩

/-- A completed row whose output has been corrupted, for the C4 witness. -/
def c4Row : Row :=
  { stepID := "create_record", sequence := 1, status := "completed"
    outputJson := some "not-json", errorText := none, runId := "run-a"
    startedAt := "t0", updatedAt := "t0" }

/-- A store holding exactly `c4Row` under workflow `wf-corrupt-cache`. -/
def c4Store : StoreState :=
  ⟨fun wf k =>
    if wf = "wf-corrupt-cache" ∧ k = "create_record#000001" then some c4Row else none⟩

/-- C4 witness: the corrupted cache surfaces the decode error and the
function is not invoked. -/
theorem C4_cached_decode_failure_witness :
    decNat (c4Row.outputJson.getD "") = Except.error "invalid character" ∧
    Step 0 decNat encNat testEnv noFaults (some (NewContext "wf-corrupt-cache" "run-b"))
        false (some (999, none)) "create_record" c4Store =
      ⟨0, some "decode cached step result for create_record#000001: invalid character",
       false, c4Store⟩ :=
  ⟨by rfl,
   C4_cached_decode_failure 0 decNat encNat testEnv noFaults
     (NewContext "wf-corrupt-cache" "run-b") (999, none) "create_record" c4Store c4Row
     "invalid character" rfl (by decide) rfl (by rfl)⟩

/-! ### Claim C5: zombie takeover -/

theorem claimStep_running_blocked (env : TimeEnv) (faults : Faults) (c : Context)
    (st : StoreState) (ref : StepRef) (r : Row)
    (hget : faults.getErr = none)
    (hrow : st.rows c.WorkflowID ref.StepKey = some r)
    (hs : r.status = statusRunning)
    (hrid : r.runId ≠ c.RunID)
    (hz : canTakeOverZombie env c (r.toRecord c.WorkflowID ref.StepKey) = false) :
    claimStep env faults c st ref =
      ⟨ClaimResult.claimExecute, "",
       some ("step " ++ ref.StepKey ++ " is still running under run_id=" ++ r.runId),
       st⟩ := by
  have hS : (r.toRecord c.WorkflowID ref.StepKey).Status = r.status := rfl
  have hR : (r.toRecord c.WorkflowID ref.StepKey).RunID = r.runId := rfl
  simp [claimStep, hget, GetStep, hrow, hS, hR, hs, hrid, hz,
    statusRunning, statusCompleted, statusFailed]

theorem claimStep_running_takeover (env : TimeEnv) (faults : Faults) (c : Context)
    (st : StoreState) (ref : StepRef) (r : Row)
    (hget : faults.getErr = none)
    (hup : faults.upsertErr = none)
    (hrow : st.rows c.WorkflowID ref.StepKey = some r)
    (hs : r.status = statusRunning)
    (hrid : r.runId ≠ c.RunID)
    (hz : canTakeOverZombie env c (r.toRecord c.WorkflowID ref.StepKey) = true) :
    claimStep env faults c st ref =
      ⟨ClaimResult.claimExecute, "", none,
       UpsertRunning st c.WorkflowID ref c.RunID env.nowStr⟩ := by
  have hS : (r.toRecord c.WorkflowID ref.StepKey).Status = r.status := rfl
  have hR : (r.toRecord c.WorkflowID ref.StepKey).RunID = r.runId := rfl
  simp [claimStep, hget, hup, GetStep, hrow, hS, hR, hs, hrid, hz,
    statusRunning, statusCompleted, statusFailed]

theorem step_exec_invokes_fn {T : Type} (zero : T) (dec : String → Except String T)
    (enc : T → Except String String) (env : TimeEnv) (faults : Faults)
    (c : Context) (fn : T × Option String) (id : String) (st : StoreState)
    (herr : (claimStep env faults c st (nextStepRef env.autoStepID c id).1).err = none)
    (hres : (claimStep env faults c st (nextStepRef env.autoStepID c id).1).res =
      ClaimResult.claimExecute) :
    (Step zero dec enc env faults (some c) false (some fn) id st).fnInvoked = true := by
  simp only [Step]
  rw [herr, hres]
  repeat' split
  all_goals simp_all

/-- C5: the zombie takeover policy.  First conjunct: `canTakeOverZombie` is
true exactly when the zombie timeout is non-positive, or `updated_at` does
not parse as RFC3339Nano, or now minus `updated_at` is at least the timeout.
Second conjunct: when takeover is permitted, a `running` row owned by a
different run id is re-claimed — the claim upserts the row to `running`
under the current run id and the wrapped function is invoked.  Third
conjunct: when takeover is not permitted, `Step` returns the
still-running-under error without invoking the function and without touching
the store. -/
theorem C5_zombie_policy :
    (∀ (env : TimeEnv) (c : Context) (record : StepRecord),
        canTakeOverZombie env c record = true ↔
          (c.ZombieTimeout ≤ 0 ∨ env.parseRFC3339Nano record.UpdatedAt = none ∨
           ∃ u, env.parseRFC3339Nano record.UpdatedAt = some u ∧
             env.nowNanos - u ≥ c.ZombieTimeout)) ∧
    (∀ (T : Type) (zero : T) (dec : String → Except String T)
        (enc : T → Except String String) (env : TimeEnv) (faults : Faults)
        (c : Context) (fn : T × Option String) (id : String) (st : StoreState) (r : Row),
        faults.getErr = none → faults.upsertErr = none →
        st.rows c.WorkflowID (nextStepRef env.autoStepID c id).1.StepKey = some r →
        r.status = statusRunning → r.runId ≠ c.RunID →
        canTakeOverZombie env c
          (r.toRecord c.WorkflowID (nextStepRef env.autoStepID c id).1.StepKey) = true →
        claimStep env faults c st (nextStepRef env.autoStepID c id).1 =
          ⟨ClaimResult.claimExecute, "", none,
           UpsertRunning st c.WorkflowID (nextStepRef env.autoStepID c id).1 c.RunID
             env.nowStr⟩ ∧
        (UpsertRunning st c.WorkflowID (nextStepRef env.autoStepID c id).1 c.RunID
            env.nowStr).rows c.WorkflowID (nextStepRef env.autoStepID c id).1.StepKey =
          some { r with status := statusRunning, outputJson := none, errorText := none
                        runId := c.RunID, startedAt := env.nowStr
                        updatedAt := env.nowStr } ∧
        (Step zero dec enc env faults (some c) false (some fn) id st).fnInvoked = true) ∧
    (∀ (T : Type) (zero : T) (dec : String → Except String T)
        (enc : T → Except String String) (env : TimeEnv) (faults : Faults)
        (c : Context) (fn : T × Option String) (id : String) (st : StoreState) (r : Row),
        faults.getErr = none →
        st.rows c.WorkflowID (nextStepRef env.autoStepID c id).1.StepKey = some r →
        r.status = statusRunning → r.runId ≠ c.RunID →
        canTakeOverZombie env c
          (r.toRecord c.WorkflowID (nextStepRef env.autoStepID c id).1.StepKey) = false →
        Step zero dec enc env faults (some c) false (some fn) id st =
          ⟨zero,
           some ("step " ++ (nextStepRef env.autoStepID c id).1.StepKey ++
             " is still running under run_id=" ++ r.runId),
           false, st⟩) := by
  refine ⟨?_, ?_, ?_⟩
  · intro env c record
    unfold canTakeOverZombie
    by_cases h : c.ZombieTimeout ≤ 0
    · simp [h]
    · rw [if_neg h]
      cases hp : env.parseRFC3339Nano record.UpdatedAt with
      | none => simp [h, hp]
      | some u => simp [h, hp, ge_iff_le]
  · intro T zero dec enc env faults c fn id st r hget hup hrow hs hrid hz
    have hcl := claimStep_running_takeover env faults c st
      (nextStepRef env.autoStepID c id).1 r hget hup hrow hs hrid hz
    have h1 : r.status ≠ statusCompleted := by rw [hs]; decide
    refine ⟨hcl, ?_, ?_⟩
    · simp [UpsertRunning, hrow, h1, StoreState.set_rows, hs,
        statusRunning, statusCompleted]
    · exact step_exec_invokes_fn zero dec enc env faults c fn id st
        (by rw [hcl]) (by rw [hcl])
  · intro T zero dec enc env faults c fn id st r hget hrow hs hrid hz
    have hcl := claimStep_running_blocked env faults c st
      (nextStepRef env.autoStepID c id).1 r hget hrow hs hrid hz
    simp only [Step]
    rw [hcl]
    rfl

/-- A `running` row owned by a previous run, for the C5 witness. -/
def c5Row : Row :=
  { stepID := "provision_access", sequence := 1, status := "running"
    outputJson := none, errorText := none, runId := "run-old"
    startedAt := "t0", updatedAt := "t0" }

/-- A store holding exactly `c5Row` under workflow `wf-zombie`. -/
def c5Store : StoreState :=
  ⟨fun wf k =>
    if wf = "wf-zombie" ∧ k = "provision_access#000001" then some c5Row else none⟩

/-- C5 witness: with zombie timeout 0 the orphaned running row is taken over
and the function runs; with a 24-hour timeout and a fresh row the call
surfaces the still-running error without invoking the function. -/
theorem C5_zombie_policy_witness :
    (Step "" (fun s => Except.ok s) (fun s => Except.ok s) testEnv noFaults
        (some (NewContext "wf-zombie" "run-new")) false (some ("done", none))
        "provision_access" c5Store).fnInvoked = true ∧
    Step "" (fun s => Except.ok s) (fun s => Except.ok s) testEnv noFaults
        (some ((NewContext "wf-zombie" "run-new").withZombieTimeout 86400000000000)) false
        (some ("unexpected", none)) "provision_access" c5Store =
      ⟨"", some "step provision_access#000001 is still running under run_id=run-old",
       false, c5Store⟩ :=
  ⟨(C5_zombie_policy.2.1 String "" (fun s => Except.ok s) (fun s => Except.ok s) testEnv
      noFaults (NewContext "wf-zombie" "run-new") ("done", none) "provision_access"
      c5Store c5Row rfl rfl (by decide) rfl (by decide) (by decide)).2.2,
   C5_zombie_policy.2.2 String "" (fun s => Except.ok s) (fun s => Except.ok s) testEnv
      noFaults ((NewContext "wf-zombie" "run-new").withZombieTimeout 86400000000000)
      ("unexpected", none) "provision_access" c5Store c5Row rfl (by decide) rfl
      (by decide) (by decide)⟩

/-! ### Claim C8: best-effort MarkFailed -/

/-- C8: when the claim yields execute and the wrapped function returns an
error, `Step` marks the row failed best-effort — if that write itself fails
its error is discarded and the store is left at the post-claim state — and
in either case returns the zero value together with the wrapped error
`step <key> failed: <err>`, which preserves the original error text. -/
theorem C8_fn_error_best_effort {T : Type} (zero : T) (dec : String → Except String T)
    (enc : T → Except String String) (env : TimeEnv) (faults : Faults)
    (c : Context) (v : T) (fe : String) (id : String) (st : StoreState)
    (herr : (claimStep env faults c st (nextStepRef env.autoStepID c id).1).err = none)
    (hres : (claimStep env faults c st (nextStepRef env.autoStepID c id).1).res =
      ClaimResult.claimExecute) :
    Step zero dec enc env faults (some c) false (some (v, some fe)) id st =
      ⟨zero,
       some ("step " ++ (nextStepRef env.autoStepID c id).1.StepKey ++ " failed: " ++ fe),
       true,
       match faults.failErr with
       | some _ => (claimStep env faults c st (nextStepRef env.autoStepID c id).1).store
       | none =>
           MarkFailed (claimStep env faults c st (nextStepRef env.autoStepID c id).1).store
             c.WorkflowID (nextStepRef env.autoStepID c id).1.StepKey c.RunID fe
             env.nowStr⟩ := by
  simp only [Step]
  rw [herr, hres]
  rfl

/-- A fault assignment whose only failure is the `MarkFailed` write. -/
def c8Faults : Faults :=
  { getErr := none, upsertErr := none, completeErr := none, failErr := some "disk full" }

/-- C8 witness: a failing function on an empty store, with the failure-mark
write itself failing — the wrapped original error is still returned and the
secondary error is discarded. -/
theorem C8_fn_error_best_effort_witness :
    (claimStep testEnv c8Faults (NewContext "wf-f" "run-1") emptyStore
        (nextStepRef testEnv.autoStepID (NewContext "wf-f" "run-1") "create_record").1).err
      = none ∧
    Step 0 decNat encNat testEnv c8Faults (some (NewContext "wf-f" "run-1")) false
        (some (7, some "kaput")) "create_record" emptyStore =
      ⟨0, some "step create_record#000001 failed: kaput", true,
       (claimStep testEnv c8Faults (NewContext "wf-f" "run-1") emptyStore
         (nextStepRef testEnv.autoStepID (NewContext "wf-f" "run-1") "create_record").1).store⟩ :=
  ⟨by decide,
   C8_fn_error_best_effort 0 decNat encNat testEnv c8Faults (NewContext "wf-f" "run-1")
     7 "kaput" "create_record" emptyStore (by decide) (by decide)⟩

end DurableExec
